import Mathlib

/-!
Shallow embedding of the `rix::io` header-only library
(`include/rix/io/{buffer,file,reader,writer,util}.hpp`) and proofs of its
specified properties.

Modelling conventions:
- `std::byte` values and the bytes of `std::string` / `std::string_view`
  text are modelled as `Nat` (one `Nat` per byte); a byte sequence or a
  text string is a `List Nat`.
- `std::size_t` arithmetic is modelled as `Nat` with an explicit
  `% 2 ^ 64` where the machine can wrap (`usub64` below models unsigned
  64-bit subtraction, as it occurs in the bounds guard of
  `Buffer::read_pod` / `Buffer::write_pod`).
- A template instantiation `T` of the POD helpers is represented by its
  object representation: a byte list `v` of length `sizeof(T)`; the
  `memcpy`-based helpers only ever copy that representation.
- Throwing C++ member functions become `Except`-returning functions; a
  mutating throwing member (`write_pod`) is state-passing and returns the
  resulting object state alongside the exception outcome.
-/

/-- `2 ^ 64`, the modulus of `std::size_t` / 64-bit unsigned arithmetic on
the modelled platform. -/
def W64 : Nat := 2 ^ 64

/-- Unsigned 64-bit subtraction `a - b` (two's-complement wraparound), as
performed by `size() - offset` on `std::size_t` operands. -/
def usub64 (a b : Nat) : Nat := (a + (W64 - b % W64)) % W64

/-- The bounds guard of `Buffer::read_pod` / `Buffer::write_pod`, verbatim
from `buffer.hpp`: `offset > size() || (size() - offset) < sizeof(T)`,
with the subtraction performed in unsigned 64-bit arithmetic.
`sz` is `size()`, `o` the offset, `w` is `sizeof(T)`. -/
def pod_bounds_fail (sz o w : Nat) : Bool :=
  decide (o > sz) || decide (usub64 sz o < w)

/-- `memcpy(dst + o, src, src.length)` on a byte list: overwrite the bytes
of `l` at positions `[o, o + src.length)` with `src`. -/
def store (l : List Nat) (o : Nat) (src : List Nat) : List Nat :=
  l.take o ++ src ++ l.drop (o + src.length)

/-- `memcpy(out, src + o, w)`: the `w` bytes of `l` starting at `o`. -/
def load (l : List Nat) (o w : Nat) : List Nat :=
  (l.drop o).take w

/-- `std::vector<std::byte>::resize(n)`: truncate, or pad with zero
bytes. -/
def resize (l : List Nat) (n : Nat) : List Nat :=
  if n ≤ l.length then l.take n else l ++ List.replicate (n - l.length) 0

/-- `rix::io::Buffer`: an owning contiguous byte buffer; the single data
member `data_ : std::vector<std::byte>`. -/
structure Buffer where
  data : List Nat
deriving DecidableEq

/-- `Buffer::size()`. -/
def Buffer.size (b : Buffer) : Nat := b.data.length

/-- `Buffer::empty()`. -/
def Buffer.isEmpty (b : Buffer) : Bool := b.data.isEmpty

/-- `Buffer::bytes()` (const): the underlying byte storage. -/
def Buffer.bytes (b : Buffer) : List Nat := b.data

/-- `Buffer::assign(std::span<const std::byte>)`:
`data_.assign(bytes.begin(), bytes.end())` — replace the contents with a
copy of the given byte sequence. -/
def Buffer.assign (_b : Buffer) (bs : List Nat) : Buffer := ⟨bs⟩

/-- `Buffer::assign(std::string_view)`: `data_.resize(text.size())`
followed by `memcpy(data_.data(), text.data(), text.size())` (the
`memcpy` is skipped for empty text, which copies nothing either way). -/
def Buffer.assign_text (b : Buffer) (s : List Nat) : Buffer :=
  ⟨store (resize b.data s.length) 0 s⟩

/-- The converting constructor `Buffer(std::string_view text)`, which
default-initialises `data_` and calls `assign(text)`. -/
def Buffer.of_text (s : List Nat) : Buffer :=
  Buffer.assign_text ⟨[]⟩ s

/-- `Buffer::to_string()`: copy of the whole byte sequence reinterpreted
as text (`std::string(as_string_view())`, no validation). -/
def Buffer.to_string (b : Buffer) : List Nat := b.data

/-- `Buffer::append_pod<T>(value)`: `resize(old + sizeof(T))` then
`memcpy(data_.data() + old, &value, sizeof(T))`.  `v` is the object
representation of `value`. -/
def Buffer.append_pod (b : Buffer) (v : List Nat) : Buffer :=
  ⟨store (resize b.data (b.size + v.length)) b.size v⟩

/-- `Buffer::read_pod<T>(offset)` (a `const` member): bounds guard, then
`memcpy` of `sizeof(T)` bytes at `offset` into the returned value.  `w`
is `sizeof(T)`; the result is the object representation read. -/
def Buffer.read_pod (b : Buffer) (o w : Nat) : Except String (List Nat) :=
  if pod_bounds_fail b.size o w then
    Except.error "rix::io::Buffer::read_pod: out of range"
  else
    Except.ok (load b.data o w)

/-- `Buffer::write_pod<T>(offset, value)`: bounds guard (throwing before
any byte of `data_` is touched), then `memcpy` of the representation `v`
of `value` into `data_` at `offset`.  State-passing: the second component
is the buffer state when the call returns or the exception escapes. -/
def Buffer.write_pod (b : Buffer) (o : Nat) (v : List Nat) :
    Except String Unit × Buffer :=
  if pod_bounds_fail b.size o v.length then
    (Except.error "rix::io::Buffer::write_pod: out of range", b)
  else
    (Except.ok (), ⟨store b.data o v⟩)

/-- A call of the `const` member `read_pod` through an object: result
paired with the (necessarily unchanged) object state. -/
def Buffer.read_pod_call (b : Buffer) (o w : Nat) :
    Except String (List Nat) × Buffer :=
  (b.read_pod o w, b)

/-- Whether an `Except` outcome is an escaped exception. -/
def isError {ε α : Type} : Except ε α → Bool
  | Except.error _ => true
  | Except.ok _ => false

/-! ### Arithmetic facts about the bounds guard -/

theorem W64_eq : W64 = 18446744073709551616 := by norm_num [W64]

theorem usub64_of_le {sz o : Nat} (hsz : sz < W64) (ho : o ≤ sz) :
    usub64 sz o = sz - o := by
  have hoW : o < W64 := lt_of_le_of_lt ho hsz
  unfold usub64
  rw [Nat.mod_eq_of_lt hoW]
  have h1 : sz + (W64 - o) = (sz - o) + W64 := by omega
  rw [h1, Nat.add_mod_right, Nat.mod_eq_of_lt (by omega)]

theorem pod_bounds_fail_iff {sz o : Nat} (w : Nat) (hsz : sz < W64)
    (_ho : o < W64) : pod_bounds_fail sz o w = true ↔ sz < o + w := by
  unfold pod_bounds_fail
  rcases Nat.lt_or_ge sz o with hlt | hge
  · simp only [Bool.or_eq_true, decide_eq_true_eq]
    constructor
    · intro _; omega
    · intro _; exact Or.inl hlt
  · have : ¬ (o > sz) := by omega
    simp only [Bool.or_eq_true, decide_eq_true_eq, this, false_or]
    rw [usub64_of_le hsz hge]
    omega

/-! ### Facts about `store`, `load`, `resize` -/

theorem store_length {l v : List Nat} {o : Nat} (h : o + v.length ≤ l.length) :
    (store l o v).length = l.length := by
  simp only [store, List.length_append, List.length_take, List.length_drop]
  omega

theorem take_length_of_le {l : List Nat} {o : Nat} (h : o ≤ l.length) :
    (l.take o).length = o := by
  simp [List.length_take]; omega

theorem load_store {l v : List Nat} {o : Nat} (h : o + v.length ≤ l.length) :
    load (store l o v) o v.length = v := by
  unfold load store
  rw [List.append_assoc, List.drop_left' (take_length_of_le (by omega)),
    List.take_left]

theorem resize_grow {l : List Nat} {n : Nat} (h : l.length ≤ n) :
    resize l n = l ++ List.replicate (n - l.length) 0 := by
  unfold resize
  by_cases hle : n ≤ l.length
  · have hn : n = l.length := le_antisymm hle h
    subst hn
    simp [List.take_length]
  · rw [if_neg hle]

theorem append_pod_data (b : Buffer) (v : List Nat) :
    (b.append_pod v).data = b.data ++ v := by
  unfold Buffer.append_pod Buffer.size
  rw [resize_grow (by omega)]
  unfold store
  have hlen : (b.data ++ List.replicate (b.data.length + v.length - b.data.length) 0).length
      = b.data.length + v.length := by
    simp [List.length_append]
  rw [List.take_left' rfl]
  rw [List.drop_eq_nil_of_le (by rw [hlen])]
  simp

theorem isError_read_pod (b : Buffer) (o w : Nat) :
    isError (b.read_pod o w) = pod_bounds_fail b.size o w := by
  unfold Buffer.read_pod
  by_cases h : pod_bounds_fail b.size o w <;> simp [h, isError]

theorem isError_write_pod (b : Buffer) (o : Nat) (v : List Nat) :
    isError (b.write_pod o v).1 = pod_bounds_fail b.size o v.length := by
  unfold Buffer.write_pod
  by_cases h : pod_bounds_fail b.size o v.length <;> simp [h, isError]

/-- C1: `read_pod` and `write_pod` on a buffer of size `< 2^64` with an
offset `< 2^64` fail with the out-of-range error exactly when
`offset + sizeof(T) > size()` in exact arithmetic (including
`offset > size()`); when in range, `read_pod` returns exactly the
in-bounds bytes `[offset, offset + sizeof(T))`, so the bounds are
validated before any byte is accessed. -/
theorem c1_pod_bounds_error_iff (b : Buffer) (o w : Nat) (v : List Nat)
    (hsz : b.size < W64) (ho : o < W64) :
    (isError (b.read_pod o w) = true ↔ b.size < o + w) ∧
    (isError (b.write_pod o v).1 = true ↔ b.size < o + v.length) ∧
    (b.size < o + w →
      b.read_pod o w = Except.error "rix::io::Buffer::read_pod: out of range") ∧
    (o + w ≤ b.size → b.read_pod o w = Except.ok (load b.data o w)) := by
  have hr := @pod_bounds_fail_iff b.size o w hsz ho
  have hw := @pod_bounds_fail_iff b.size o v.length hsz ho
  refine ⟨by rw [isError_read_pod]; exact hr,
          by rw [isError_write_pod]; exact hw, ?_, ?_⟩
  · intro hoob
    unfold Buffer.read_pod
    rw [if_pos (hr.mpr hoob)]
  · intro hin
    have hg : pod_bounds_fail b.size o w = false := by
      rw [Bool.eq_false_iff]
      intro hgt
      exact absurd (hr.mp hgt) (by omega)
    unfold Buffer.read_pod
    simp [hg]

/-- Witness for C1 at buffer `[1, 2, 3]`, offset 2, width 2. -/
theorem c1_witness : isError ((Buffer.mk [1, 2, 3]).read_pod 2 2) = true := by
  have h := c1_pod_bounds_error_iff (Buffer.mk [1, 2, 3]) 2 2 [7, 7]
    (by decide) (by decide)
  exact h.1.mpr (by decide)

/-- C10: the bounds guard
`offset > size() || (size() - offset) < sizeof(T)` of
`read_pod`/`write_pod`, with `size() - offset` computed in unsigned
64-bit arithmetic, holds exactly when `offset + sizeof(T) > size()` in
exact unbounded arithmetic; and wherever the C++ short-circuit evaluates
the subtraction (i.e. when `offset ≤ size()`), that subtraction does not
wrap: it equals the exact difference.  Hence the check cannot be bypassed
by overflow of `offset + sizeof(T)`. -/
theorem c10_guard_no_wrap (sz o w : Nat) (hsz : sz < W64) (ho : o < W64) :
    (pod_bounds_fail sz o w = true ↔ sz < o + w) ∧
    (o ≤ sz → usub64 sz o = sz - o) :=
  ⟨pod_bounds_fail_iff w hsz ho, fun h => usub64_of_le hsz h⟩

/-- Witness for C10 at `size = 5` and the near-maximal offset
`2^64 - 1`, where `offset + sizeof(T)` would overflow a 64-bit word. -/
theorem c10_witness : pod_bounds_fail 5 (W64 - 1) 4 = true := by
  have h := c10_guard_no_wrap 5 (W64 - 1) 4 (by decide) (by decide)
  exact h.1.mpr (by decide)

/-- C4: writing a value at an in-range offset (`offset + sizeof(T) ≤
size()`) succeeds, and reading at the same offset and width from the
resulting buffer returns exactly the written value. -/
theorem c4_write_then_read (b : Buffer) (o : Nat) (v : List Nat)
    (hsz : b.size < W64) (ho : o < W64) (hin : o + v.length ≤ b.size) :
    (b.write_pod o v).1 = Except.ok () ∧
    ((b.write_pod o v).2).read_pod o v.length = Except.ok v := by
  have hg : pod_bounds_fail b.size o v.length = false := by
    rw [Bool.eq_false_iff]
    intro hgt
    exact absurd ((pod_bounds_fail_iff v.length hsz ho).mp hgt) (by omega)
  have hin' : o + v.length ≤ b.data.length := hin
  have hb2 : (b.write_pod o v).2 = Buffer.mk (store b.data o v) := by
    unfold Buffer.write_pod
    simp [hg]
  refine ⟨by unfold Buffer.write_pod; simp [hg], ?_⟩
  rw [hb2]
  unfold Buffer.read_pod
  have hsz2 : (Buffer.mk (store b.data o v)).size = b.size := by
    simp only [Buffer.size]
    exact store_length hin'
  rw [hsz2, if_neg (by rw [hg]; exact Bool.false_ne_true)]
  rw [show (Buffer.mk (store b.data o v)).data = store b.data o v from rfl]
  rw [load_store hin']

/-- Witness for C4: buffer `[1, 2, 3, 4]`, write `[9, 8]` at offset 1,
read it back. -/
theorem c4_witness :
    ((Buffer.mk [1, 2, 3, 4]).write_pod 1 [9, 8]).1 = Except.ok () ∧
    (((Buffer.mk [1, 2, 3, 4]).write_pod 1 [9, 8]).2).read_pod 1 2 =
      Except.ok [9, 8] :=
  c4_write_then_read (Buffer.mk [1, 2, 3, 4]) 1 [9, 8]
    (by decide) (by decide) (by decide)

/-- C9: an out-of-range `write_pod` (`offset + sizeof(T) > size()`)
raises the bounds error and returns the buffer completely unchanged
(same object, hence same size and same byte contents): the guard throws
before any byte is written.  A `read_pod` call (a `const` member)
likewise leaves the object state unchanged. -/
theorem c9_oob_write_atomic (b : Buffer) (o : Nat) (v : List Nat) (w : Nat)
    (hsz : b.size < W64) (ho : o < W64) (hoob : b.size < o + v.length) :
    (b.write_pod o v).2 = b ∧
    ((b.write_pod o v).2).bytes = b.bytes ∧
    ((b.write_pod o v).2).size = b.size ∧
    isError (b.write_pod o v).1 = true ∧
    (b.read_pod_call o w).2 = b := by
  have hg : pod_bounds_fail b.size o v.length = true :=
    (pod_bounds_fail_iff v.length hsz ho).mpr hoob
  have h2 : (b.write_pod o v).2 = b := by
    unfold Buffer.write_pod
    simp [hg]
  refine ⟨h2, by rw [h2], by rw [h2], ?_, rfl⟩
  rw [isError_write_pod]
  exact hg

/-- Witness for C9: buffer `[1, 2, 3]`, out-of-range write of `[5, 5]`
at offset 2. -/
theorem c9_witness :
    ((Buffer.mk [1, 2, 3]).write_pod 2 [5, 5]).2 = Buffer.mk [1, 2, 3] ∧
    (((Buffer.mk [1, 2, 3]).write_pod 2 [5, 5]).2).bytes =
      (Buffer.mk [1, 2, 3]).bytes ∧
    (((Buffer.mk [1, 2, 3]).write_pod 2 [5, 5]).2).size =
      (Buffer.mk [1, 2, 3]).size ∧
    isError ((Buffer.mk [1, 2, 3]).write_pod 2 [5, 5]).1 = true ∧
    ((Buffer.mk [1, 2, 3]).read_pod_call 2 9).2 = Buffer.mk [1, 2, 3] :=
  c9_oob_write_atomic (Buffer.mk [1, 2, 3]) 2 [5, 5] 9
    (by decide) (by decide) (by decide)

/-- C5 counterexample: on the non-empty buffer `[7]`, appending the
one-byte value `[1]` with `append_pod` and then reading one byte at
offset 0 with `read_pod` returns the pre-existing byte `[7]`, not the
appended value `[1]` — `append_pod` appends at the end, so the claim as
stated (read at offset 0 returns `v` for every buffer) is false. -/
theorem c5_counterexample :
    ((Buffer.mk [7]).append_pod [1]).read_pod 0 1 ≠ Except.ok [1] := by
  have h : ((Buffer.mk [7]).append_pod [1]).read_pod 0 1 = Except.ok [7] := by
    rfl
  rw [h]
  intro hc
  simp at hc

/-- C5 (amended): after `b.append_pod(v)`, reading `sizeof(T)` bytes at
the offset equal to `b`'s size before the append returns `v`; for an
initially empty buffer that offset is 0, which is the spec's stated
special case. -/
theorem c5_append_pod_read_at_old_size (b : Buffer) (v : List Nat)
    (hsz : b.size + v.length < W64) :
    (b.append_pod v).read_pod b.size v.length = Except.ok v := by
  have hdata := append_pod_data b v
  have hsize : (b.append_pod v).size = b.size + v.length := by
    simp [Buffer.size, hdata, List.length_append]
  unfold Buffer.read_pod
  rw [hsize]
  have hg : pod_bounds_fail (b.size + v.length) b.size v.length = false := by
    rw [Bool.eq_false_iff]
    intro hgt
    have := (@pod_bounds_fail_iff (b.size + v.length) b.size
      v.length hsz (by omega)).mp hgt
    omega
  rw [if_neg (by rw [hg]; exact Bool.false_ne_true)]
  rw [hdata]
  unfold load
  rw [show b.size = b.data.length from rfl, List.drop_left, List.take_length]

/-- Witness for C5 (amended): empty-prefix case made concrete — buffer
`[7]`, append `[1]`, read one byte at the old size 1. -/
theorem c5_witness :
    ((Buffer.mk [7]).append_pod [1]).read_pod 1 1 = Except.ok [1] :=
  c5_append_pod_read_at_old_size (Buffer.mk [7]) [1] (by decide)

/-- C6: `assign` with a byte sequence makes `bytes()` equal to that
sequence and `size()` equal to its length; constructing a buffer from
text and calling `to_string()` returns the text unchanged (bytes are
copied as-is, with no validation or transformation). -/
theorem c6_assign_to_string_round_trip (b : Buffer) (bs s : List Nat) :
    (b.assign bs).bytes = bs ∧
    (b.assign bs).size = bs.length ∧
    (Buffer.of_text s).to_string = s := by
  refine ⟨rfl, rfl, ?_⟩
  unfold Buffer.of_text Buffer.assign_text Buffer.to_string
  rw [show (Buffer.mk ([] : List Nat)).data = [] from rfl]
  rw [resize_grow (by simp)]
  unfold store
  simp

/-! ### `file.hpp`: modes, types, flag translation, mode checks -/

/-- `rix::io::FileMode`. -/
inductive FileMode where
  | read
  | write
  | append
  | read_write
deriving DecidableEq

/-- `rix::io::FileType`. -/
inductive FileType where
  | text
  | binary
deriving DecidableEq

/-- `std::ios_base::openmode` as the set of flag bits the library can
set: `in`, `out`, `trunc`, `app`, `binary`. -/
structure OpenMode where
  input : Bool := false
  output : Bool := false
  trunc : Bool := false
  app : Bool := false
  binary : Bool := false
deriving DecidableEq

/-- `rix::io::detail::to_openmode(mode, type)`: the switch over the mode
sets the mode bits, then `type == binary` adds the `binary` bit. -/
def to_openmode (mode : FileMode) (ftype : FileType) : OpenMode :=
  let m : OpenMode := {}
  let m := match mode with
    | FileMode.read => { m with input := true }
    | FileMode.write => { m with output := true, trunc := true }
    | FileMode.append => { m with output := true, app := true }
    | FileMode.read_write => { m with input := true, output := true }
  if ftype == FileType.binary then { m with binary := true } else m

/-- `rix::io::detail::mode_can_read`. -/
def mode_can_read (m : FileMode) : Bool :=
  m == FileMode.read || m == FileMode.read_write

/-- `rix::io::detail::mode_can_write`. -/
def mode_can_write (m : FileMode) : Bool :=
  m == FileMode.write || m == FileMode.append || m == FileMode.read_write

/-- The distinct error conditions `rix::io::File` and the `reader.hpp`
helpers can raise (each constructor is one `throw` site; every message
carries the path). -/
inductive FileError where
  | openFailed (p : List Nat)
  | notOpen (p : List Nat)
  | notReadable (p : List Nat)
  | notWritable (p : List Nat)
  | readFailed (p : List Nat)
  | writeFailed (p : List Nat)
deriving DecidableEq

/-- `rix::io::File`: the members `path_`, `mode_`, `type_`, and the open
state of `stream_` (`stream_.is_open()`).  The host stream's data
transfer behaviour is passed to each operation as an explicit host
outcome parameter. -/
structure File where
  path : List Nat
  isOpen : Bool
  mode : FileMode
  ftype : FileType

/-- `File::require_open`. -/
def File.require_open (f : File) : Except FileError Unit :=
  if f.isOpen then Except.ok () else Except.error (FileError.notOpen f.path)

/-- `File::require_readable`. -/
def File.require_readable (f : File) : Except FileError Unit :=
  if mode_can_read f.mode then Except.ok ()
  else Except.error (FileError.notReadable f.path)

/-- `File::require_writable`. -/
def File.require_writable (f : File) : Except FileError Unit :=
  if mode_can_write f.mode then Except.ok ()
  else Except.error (FileError.notWritable f.path)

/-- `File::read_all_text()`: `require_open`, `require_readable`, then the
host stream is rewound and consumed.  `host` is the host outcome:
`.ok c` is a complete read of content `c`; `.error ()` is a stream fault
mid-read (fail without eof), which the source turns into the
read-failed error. -/
def File.read_all_text (f : File) (host : Except Unit (List Nat)) :
    Except FileError (List Nat) :=
  match f.require_open with
  | Except.error e => Except.error e
  | Except.ok _ =>
    match f.require_readable with
    | Except.error e => Except.error e
    | Except.ok _ =>
      match host with
      | Except.error _ => Except.error (FileError.readFailed f.path)
      | Except.ok c => Except.ok c

/-- `File::read_all_bytes()`: same guard sequence; the host outcome
covers the seek/size probe and the block read (`.error ()` stands for
any host fault there: negative size, short read, or stream failure). -/
def File.read_all_bytes (f : File) (host : Except Unit (List Nat)) :
    Except FileError (List Nat) :=
  match f.require_open with
  | Except.error e => Except.error e
  | Except.ok _ =>
    match f.require_readable with
    | Except.error e => Except.error e
    | Except.ok _ =>
      match host with
      | Except.error _ => Except.error (FileError.readFailed f.path)
      | Except.ok c => Except.ok c

/-- `File::write(std::string_view)`: `require_open`, `require_writable`,
then the host stream write; `fault = true` means the stream reports
failure afterwards (`!stream_`), turned into the write-failed error. -/
def File.write_text (f : File) (_text : List Nat) (fault : Bool) :
    Except FileError Unit :=
  match f.require_open with
  | Except.error e => Except.error e
  | Except.ok _ =>
    match f.require_writable with
    | Except.error e => Except.error e
    | Except.ok _ =>
      if fault then Except.error (FileError.writeFailed f.path)
      else Except.ok ()

/-- `File::write(std::span<const std::byte>)`: identical guard sequence;
the write itself is skipped for empty input but `!stream_` is still
checked, so the fault parameter covers both paths. -/
def File.write_bytes (f : File) (_bytes : List Nat) (fault : Bool) :
    Except FileError Unit :=
  match f.require_open with
  | Except.error e => Except.error e
  | Except.ok _ =>
    match f.require_writable with
    | Except.error e => Except.error e
    | Except.ok _ =>
      if fault then Except.error (FileError.writeFailed f.path)
      else Except.ok ()

/-- C2: on an open handle, `read_all_text`/`read_all_bytes` raise the
"not readable" error exactly when the mode is `write` or `append` (never
for `read` or `read_write`); `write(text)`/`write(bytes)` raise the
"not writable" error exactly when the mode is `read`; a `read_write`
handle performs both reads and writes; and on a closed handle every
read or write operation raises the "not open" error, whatever the host
would have done. -/
theorem c2_file_mode_checks (p : List Nat) (m : FileMode) (t : FileType)
    (host : Except Unit (List Nat)) (fault : Bool) (txt bs c : List Nat) :
    (File.read_all_text ⟨p, false, m, t⟩ host =
      Except.error (FileError.notOpen p)) ∧
    (File.read_all_bytes ⟨p, false, m, t⟩ host =
      Except.error (FileError.notOpen p)) ∧
    (File.write_text ⟨p, false, m, t⟩ txt fault =
      Except.error (FileError.notOpen p)) ∧
    (File.write_bytes ⟨p, false, m, t⟩ bs fault =
      Except.error (FileError.notOpen p)) ∧
    ((File.read_all_text ⟨p, true, m, t⟩ host =
      Except.error (FileError.notReadable p)) ↔
      (m = FileMode.write ∨ m = FileMode.append)) ∧
    ((File.read_all_bytes ⟨p, true, m, t⟩ host =
      Except.error (FileError.notReadable p)) ↔
      (m = FileMode.write ∨ m = FileMode.append)) ∧
    ((File.write_text ⟨p, true, m, t⟩ txt fault =
      Except.error (FileError.notWritable p)) ↔ m = FileMode.read) ∧
    ((File.write_bytes ⟨p, true, m, t⟩ bs fault =
      Except.error (FileError.notWritable p)) ↔ m = FileMode.read) ∧
    (File.read_all_text ⟨p, true, FileMode.read_write, t⟩ (Except.ok c) =
      Except.ok c) ∧
    (File.read_all_bytes ⟨p, true, FileMode.read_write, t⟩ (Except.ok c) =
      Except.ok c) ∧
    (File.write_text ⟨p, true, FileMode.read_write, t⟩ txt false =
      Except.ok ()) ∧
    (File.write_bytes ⟨p, true, FileMode.read_write, t⟩ bs false =
      Except.ok ()) := by
  refine ⟨?_, ?_, ?_, ?_, ?_, ?_, ?_, ?_, ?_, ?_, ?_, ?_⟩ <;>
    cases m <;> cases host <;> cases fault <;>
    simp [File.read_all_text, File.read_all_bytes, File.write_text,
      File.write_bytes, File.require_open, File.require_readable,
      File.require_writable, mode_can_read, mode_can_write]

/-- C7: the mode/type-to-host-flags translation `detail::to_openmode`
matches the spec table exactly — `read ↦ in`; `write ↦ out|trunc`;
`append ↦ out|app`; `read_write ↦ in|out` (no `trunc`) — and the
`binary` bit is set exactly when the content type is `binary`,
independently of the mode. -/
theorem c7_to_openmode_table (t : FileType) :
    (to_openmode FileMode.read t =
      { input := true, binary := t == FileType.binary }) ∧
    (to_openmode FileMode.write t =
      { output := true, trunc := true, binary := t == FileType.binary }) ∧
    (to_openmode FileMode.append t =
      { output := true, app := true, binary := t == FileType.binary }) ∧
    (to_openmode FileMode.read_write t =
      { input := true, output := true, binary := t == FileType.binary }) ∧
    ((to_openmode FileMode.read t).binary = true ↔ t = FileType.binary) ∧
    ((to_openmode FileMode.write t).binary = true ↔ t = FileType.binary) ∧
    ((to_openmode FileMode.append t).binary = true ↔ t = FileType.binary) ∧
    ((to_openmode FileMode.read_write t).binary = true ↔
      t = FileType.binary) := by
  cases t <;> simp [to_openmode]

/-! ### `reader.hpp`: whole-file read and the non-throwing variants -/

/-- `rix::io::read_file_text(path)`: open `File{path, read, text}` (the
constructor throws the open error when the host cannot open the path —
`fs` maps a path to its readable content, `none` when opening fails),
then `read_all_text` on the fresh open handle; `fault` is a host fault
mid-read. -/
def read_file_text (fs : List Nat → Option (List Nat)) (p : List Nat)
    (fault : Bool) : Except FileError (List Nat) :=
  match fs p with
  | none => Except.error (FileError.openFailed p)
  | some c =>
    File.read_all_text ⟨p, true, FileMode.read, FileType.text⟩
      (if fault then Except.error () else Except.ok c)

/-- `rix::io::read_file_binary(path)`: as `read_file_text` but with
`File{path, read, binary}` and `read_all_bytes`. -/
def read_file_binary (fs : List Nat → Option (List Nat)) (p : List Nat)
    (fault : Bool) : Except FileError (List Nat) :=
  match fs p with
  | none => Except.error (FileError.openFailed p)
  | some c =>
    File.read_all_bytes ⟨p, true, FileMode.read, FileType.binary⟩
      (if fault then Except.error () else Except.ok c)

/-- `rix::io::try_read_file_text(path)`: `try { return read_file_text; }
catch (...) { return std::nullopt; }`. -/
def try_read_file_text (fs : List Nat → Option (List Nat)) (p : List Nat)
    (fault : Bool) : Option (List Nat) :=
  match read_file_text fs p fault with
  | Except.ok c => some c
  | Except.error _ => none

/-- `rix::io::try_read_file_binary(path)`. -/
def try_read_file_binary (fs : List Nat → Option (List Nat)) (p : List Nat)
    (fault : Bool) : Option (List Nat) :=
  match read_file_binary fs p fault with
  | Except.ok c => some c
  | Except.error _ => none

/-- C8: on a path the host cannot open (`fs p = none`, e.g. no file
exists there), `try_read_file_text` and `try_read_file_binary` return
`none`; more generally every failure of the throwing variants is
converted to `none`, and a success is passed through — the non-throwing
variants are total functions into `Option`, so no exception ever
propagates to the caller. -/
theorem c8_try_read_absent (fs : List Nat → Option (List Nat))
    (p : List Nat) (fault : Bool) :
    (fs p = none →
      try_read_file_text fs p fault = none ∧
      try_read_file_binary fs p fault = none) ∧
    (∀ e, read_file_text fs p fault = Except.error e →
      try_read_file_text fs p fault = none) ∧
    (∀ e, read_file_binary fs p fault = Except.error e →
      try_read_file_binary fs p fault = none) ∧
    (∀ c, read_file_text fs p fault = Except.ok c →
      try_read_file_text fs p fault = some c) ∧
    (∀ c, read_file_binary fs p fault = Except.ok c →
      try_read_file_binary fs p fault = some c) := by
  refine ⟨?_, ?_, ?_, ?_, ?_⟩
  · intro habs
    constructor
    · unfold try_read_file_text read_file_text
      rw [habs]
    · unfold try_read_file_binary read_file_binary
      rw [habs]
  · intro e he
    unfold try_read_file_text
    rw [he]
  · intro e he
    unfold try_read_file_binary
    rw [he]
  · intro c hc
    unfold try_read_file_text
    rw [hc]
  · intro c hc
    unfold try_read_file_binary
    rw [hc]

/-- Witness for C8: the empty host filesystem, where no path opens. -/
theorem c8_witness :
    try_read_file_text (fun _ => none) [120] false = none ∧
    try_read_file_binary (fun _ => none) [120] false = none :=
  (c8_try_read_absent (fun _ => none) [120] false).1 rfl

/-! ### `util.hpp`: `temp_path`

`temp_path(prefix)` reads `now = steady_clock::now().time_since_epoch()
.count()` once, seeds a `std::mt19937_64` with `now`, draws one value,
and builds `prefix + "_" + to_string(now) + "_" + to_string(rand) +
".tmp"` under the system temp directory.  The clock reading `now` is the
only call-varying input: the "random" value is a deterministic function
of the seed, hence of `now`. -/

/-- mt19937_64 lower mask (31 bits). -/
def mtLowerMask : Nat := 0x7FFFFFFF

/-- mt19937_64 upper mask (33 bits). -/
def mtUpperMask : Nat := 0xFFFFFFFF80000000

/-- mt19937_64 twist constant `a`. -/
def mtMatrixA : Nat := 0xB5026F5AA96619E9

/-- `std::mt19937_64{seed}` state initialisation:
`x[0] = seed mod 2^64`, `x[i] = (6364136223846793005 * (x[i-1] xor
(x[i-1] >> 62)) + i) mod 2^64` for `i = 1 .. 311`. -/
def mtInit (seed : Nat) : Array Nat :=
  (List.range 311).foldl
    (fun a i =>
      a.push ((6364136223846793005 * (a[i]! ^^^ (a[i]! >>> 62)) + (i + 1)) % W64))
    #[seed % W64]

/-- One block regeneration of the mt19937_64 state (n = 312, m = 156):
for each `i`, `x = (mt[i] & upper) | (mt[(i+1) % 312] & lower)`, then
`mt[i] = mt[(i+156) % 312] xor (x >> 1) xor (a if x odd)`, reading the
in-place updated state exactly as the reference loop does. -/
def mtTwist (a : Array Nat) : Array Nat :=
  (List.range 312).foldl
    (fun a i =>
      let x := (a[i]! &&& mtUpperMask) ||| (a[(i + 1) % 312]! &&& mtLowerMask)
      a.set! i ((a[(i + 156) % 312]! ^^^ (x >>> 1)) ^^^
        (if x % 2 = 1 then mtMatrixA else 0)))
    a

/-- mt19937_64 output tempering (u,d) = (29, 0x5555555555555555),
(s,b) = (17, 0x71D67FFFEDA60000), (t,c) = (37, 0xFFF7EEE000000000),
l = 43. -/
def mtTemper (y : Nat) : Nat :=
  let y1 := y ^^^ ((y >>> 29) &&& 0x5555555555555555)
  let y2 := y1 ^^^ ((y1 <<< 17) &&& 0x71D67FFFEDA60000)
  let y3 := y2 ^^^ ((y2 <<< 37) &&& 0xFFF7EEE000000000)
  y3 ^^^ (y3 >>> 43)

/-- The first value drawn from `std::mt19937_64{seed}` — the `rng()`
call of `temp_path`. -/
def mt64First (seed : Nat) : Nat :=
  mtTemper ((mtTwist (mtInit seed))[0]!)

/-- `std::to_string` of an unsigned value, as its decimal digit bytes
(`fuel`-structured recursion; `fuel > n` suffices). -/
def natDecimalAux : Nat → Nat → List Nat
  | 0, _ => []
  | fuel + 1, n =>
    if n < 10 then [48 + n] else natDecimalAux fuel (n / 10) ++ [48 + n % 10]

/-- `std::to_string(n)` for a non-negative count `n`. -/
def natDecimal (n : Nat) : List Nat := natDecimalAux (n + 1) n

/-- Decimal decoding, inverse of `natDecimal`. -/
def evalDecimal (l : List Nat) : Nat :=
  l.foldl (fun a d => 10 * a + (d - 48)) 0

/-- The file-name string `temp_path` builds for prefix `pfx` when the
steady-clock count it reads is `now`:
`pfx + '_' + to_string(now) + '_' + to_string(rng()) + ".tmp"`, where
the `std::mt19937_64` is seeded with `now` itself. -/
def temp_path_name (pfx : List Nat) (now : Nat) : List Nat :=
  pfx ++ [95] ++ natDecimal now ++ [95] ++ natDecimal (mt64First (now % W64))
    ++ [46, 116, 109, 112]

/-- `temp_path(prefix)` under temp directory `base`
(`base / name`, with the path separator byte 47). -/
def temp_path (base : List Nat) (pfx : List Nat) (now : Nat) : List Nat :=
  base ++ [47] ++ temp_path_name pfx now

theorem natDecimalAux_eval : ∀ fuel n, n < fuel →
    evalDecimal (natDecimalAux fuel n) = n := by
  intro fuel
  induction fuel with
  | zero => intro n h; omega
  | succ fuel ih =>
    intro n h
    unfold natDecimalAux
    by_cases hn : n < 10
    · simp [hn, evalDecimal]
    · rw [if_neg hn]
      have hdiv : n / 10 < fuel := by omega
      have := ih (n / 10) hdiv
      simp only [evalDecimal, List.foldl_append] at *
      rw [this]
      simp only [List.foldl_cons, List.foldl_nil]
      omega

theorem natDecimal_eval (n : Nat) : evalDecimal (natDecimal n) = n :=
  natDecimalAux_eval (n + 1) n (Nat.lt_succ_self n)

theorem natDecimal_inj {m n : Nat} (h : natDecimal m = natDecimal n) :
    m = n := by
  have hm := natDecimal_eval m
  rw [h, natDecimal_eval n] at hm
  exact hm.symm

theorem natDecimalAux_digit_le : ∀ fuel n d, d ∈ natDecimalAux fuel n →
    d ≤ 57 := by
  intro fuel
  induction fuel with
  | zero => intro n d h; simp [natDecimalAux] at h
  | succ fuel ih =>
    intro n d h
    unfold natDecimalAux at h
    by_cases hn : n < 10
    · rw [if_pos hn] at h
      simp at h
      omega
    · rw [if_neg hn] at h
      rcases List.mem_append.mp h with h1 | h2
      · exact ih (n / 10) d h1
      · simp at h2
        have : n % 10 < 10 := Nat.mod_lt n (by omega)
        omega

theorem natDecimal_no_sep (n : Nat) : (95 : Nat) ∉ natDecimal n := by
  intro h
  have := natDecimalAux_digit_le (n + 1) n 95 h
  omega

/-- Cancellation around a separator byte that occurs in neither leading
segment. -/
theorem sep_split : ∀ (u v w w2 : List Nat), (95 : Nat) ∉ u → (95 : Nat) ∉ v →
    u ++ 95 :: w = v ++ 95 :: w2 → u = v ∧ w = w2 := by
  intro u
  induction u with
  | nil =>
    intro v w w2 _ hv h
    cases v with
    | nil => simpa using h
    | cons y ys =>
      simp only [List.nil_append, List.cons_append, List.cons.injEq] at h
      exact absurd (List.mem_cons_self y ys) (h.1 ▸ hv)
  | cons x xs ih =>
    intro v w w2 hu hv h
    cases v with
    | nil =>
      simp only [List.nil_append, List.cons_append, List.cons.injEq] at h
      exact absurd (List.mem_cons_self x xs) (h.1 ▸ hu)
    | cons y ys =>
      simp only [List.cons_append, List.cons.injEq] at h
      obtain ⟨hxy, hrest⟩ := h
      have hu' : (95 : Nat) ∉ xs := fun hm => hu (List.mem_cons_of_mem x hm)
      have hv' : (95 : Nat) ∉ ys := fun hm => hv (List.mem_cons_of_mem y hm)
      obtain ⟨h1, h2⟩ := ih ys w w2 hu' hv' hrest
      exact ⟨by rw [hxy, h1], h2⟩

/-- Two name strings of the `temp_path` shape, with the second
(random-value) decimal segment held abstract, are equal only when the
timestamp segments decode to the same count. -/
theorem temp_path_name_shape_inj (pfx a1 a2 : List Nat) (t1 t2 : Nat)
    (h : pfx ++ [95] ++ natDecimal t1 ++ [95] ++ a1 ++ [46, 116, 109, 112]
       = pfx ++ [95] ++ natDecimal t2 ++ [95] ++ a2 ++ [46, 116, 109, 112]) :
    t1 = t2 := by
  simp only [List.append_assoc, List.cons_append, List.nil_append,
    List.append_cancel_left_eq, List.cons.injEq, true_and] at h
  have hsplit := sep_split (natDecimal t1) (natDecimal t2) _ _
    (natDecimal_no_sep t1) (natDecimal_no_sep t2) h
  exact natDecimal_inj hsplit.1

/-- C3 (analysis): for a fixed temp directory and prefix, two `temp_path`
results are equal exactly when the steady-clock counts read by the two
calls are equal.  In particular the composed "random" value adds no
collision protection beyond the clock: whenever two calls observe the
same clock tick — which the non-strictly-monotonic `steady_clock`
permits — the generated paths are identical, contradicting the claim
that two calls never produce identical paths. -/
theorem c3_temp_path_eq_iff_clock_eq (base pfx : List Nat) (t1 t2 : Nat) :
    temp_path base pfx t1 = temp_path base pfx t2 ↔ t1 = t2 := by
  constructor
  · intro h
    have h1 : temp_path_name pfx t1 = temp_path_name pfx t2 := by
      unfold temp_path at h
      exact List.append_cancel_left h
    unfold temp_path_name at h1
    exact temp_path_name_shape_inj pfx _ _ t1 t2 h1
  · intro h
    rw [h]
